import Mathlib

/-!
Shallow embedding of the session-managed streaming transport of
`src/transports/streamable-http.ts` (class `StreamableHttpServer`, class
`SSEServerTransport`, class `SSETransport`), together with a model of the
rate limiter collaborator described by the specification.

Session identifiers are `String` (the source uses `randomUUID()` strings).
The `transports` record (`Record<string, StreamableHTTPServerTransport>`)
is embedded as the list of its keys; the `sessionTimeouts`
`Map<string, NodeJS.Timeout>` is embedded as an association list mapping a
session id to the absolute time at which its pending timer fires.
Wall-clock time is `Nat` (milliseconds).
-/

namespace MCPTransport

/-- Error codes from `src/types/errors.ts` used by the transport; each name
appears verbatim at its use site in `src/transports/streamable-http.ts`
(`RATE_LIMITED` is the 429-equivalent code the spec calls `RateLimited`). -/
inductive ErrorCode where
  | SERVER_OVERLOADED
  | TRANSPORT_TIMEOUT
  | TRANSPORT_INVALID_SESSION
  | TRANSPORT_CONNECTION_FAILED
  | INVALID_REQUEST
  | RATE_LIMITED
  | INTERNAL_ERROR
  deriving DecidableEq, Repr

/-- HTTP response envelope as the transport emits it: status code plus the
machine-readable error code of the JSON-RPC error payload (`none` on
success). -/
structure MCPResponse where
  status : Nat
  errorCode : Option ErrorCode
  deriving DecidableEq, Repr

/-- Successful handling of a request (the SDK transport writes the actual
payload; only the envelope matters here). -/
def okResponse : MCPResponse := ⟨200, none⟩

/-- The 503 response built at `streamable-http.ts:278-292` when the
concurrent-session ceiling is reached. -/
def overloadedResponse : MCPResponse := ⟨503, some ErrorCode.SERVER_OVERLOADED⟩

/-- The 400 response built for a missing/unknown session
(`streamable-http.ts:330-341`, `:360-370`, `:390-400`). -/
def invalidSessionResponse : MCPResponse := ⟨400, some ErrorCode.TRANSPORT_INVALID_SESSION⟩

/-- The 408 response written by the request-timeout middleware
(`streamable-http.ts:100-111`). -/
def timeoutResponse : MCPResponse := ⟨408, some ErrorCode.TRANSPORT_TIMEOUT⟩

/-- The 429 response of the rate-limiting middleware (spec §7: `RateLimited`). -/
def rateLimitedResponse : MCPResponse := ⟨429, some ErrorCode.RATE_LIMITED⟩

/-- The 405 response for an unsupported verb (`streamable-http.ts:302-310`). -/
def methodNotAllowedResponse : MCPResponse := ⟨405, some ErrorCode.INVALID_REQUEST⟩

/-- The configuration fields of `StreamableHttpServerOptions` that the
session registry and the timeout middleware read. -/
structure StreamableHttpServerOptions where
  maxConcurrentSessions : Nat
  sessionTimeoutMs : Nat
  requestTimeoutMs : Nat
  deriving DecidableEq, Repr

/-- `Map.set` on an association list: replaces any existing binding of `k`. -/
def mapSet {β : Type} (m : List (String × β)) (k : String) (v : β) : List (String × β) :=
  (k, v) :: m.filter (fun p => p.1 != k)

/-- `Map.get` on an association list. -/
def mapGet {β : Type} (m : List (String × β)) (k : String) : Option β :=
  (m.find? (fun p => p.1 == k)).map (fun p => p.2)

/-- `Map.delete` on an association list. -/
def mapDel {β : Type} (m : List (String × β)) (k : String) : List (String × β) :=
  m.filter (fun p => p.1 != k)

/-- Mutable state of a `StreamableHttpServer` instance: the keys of the
`transports` record and the `sessionTimeouts` map (id ↦ absolute firing
time of the pending idle timer). -/
structure ServerState where
  transports : List String
  sessionTimeouts : List (String × Nat)
  deriving DecidableEq, Repr

/-- The registry at construction time: no sessions, no timers. -/
def emptyServerState : ServerState := ⟨[], []⟩

/-- `setupSessionTimeout` (`streamable-http.ts:459-466`): schedules a timer
firing `sessionTimeoutMs` from now that will run `cleanupSession`, and
stores it in the `sessionTimeouts` map. -/
def setupSessionTimeout (opts : StreamableHttpServerOptions) (now : Nat)
    (st : ServerState) (sid : String) : ServerState :=
  { st with sessionTimeouts := mapSet st.sessionTimeouts sid (now + opts.sessionTimeoutMs) }

/-- `refreshSessionTimeout` (`streamable-http.ts:471-477`): cancels the
existing timer (if any) and schedules a fresh one; the map binding is
overwritten by `setupSessionTimeout`. -/
def refreshSessionTimeout (opts : StreamableHttpServerOptions) (now : Nat)
    (st : ServerState) (sid : String) : ServerState :=
  setupSessionTimeout opts now st sid

/-- Resource releases performed by `cleanupSession`: `clearTimeout` on the
idle timer and `transport.close()` on the streaming channel. -/
inductive ReleaseAction where
  | clearTimer (sid : String)
  | closeTransport (sid : String)
  deriving DecidableEq, Repr

/-- `cleanupSession` (`streamable-http.ts:482-504`): if the id has a
pending timer, clear it and delete it from `sessionTimeouts`; if the id is
in `transports`, close the transport (errors are caught and logged) and
delete the entry. The whole body is wrapped in try/catch, so the function
is total. Returns the new state and the releases actually performed. -/
def cleanupSession (st : ServerState) (sid : String) : ServerState × List ReleaseAction :=
  let hasTimer := (mapGet st.sessionTimeouts sid).isSome
  let timeouts' := if hasTimer then mapDel st.sessionTimeouts sid else st.sessionTimeouts
  let timerActs : List ReleaseAction := if hasTimer then [ReleaseAction.clearTimer sid] else []
  let hasTransport := st.transports.contains sid
  let transports' :=
    if hasTransport then st.transports.filter (fun s => s != sid) else st.transports
  let closeActs : List ReleaseAction :=
    if hasTransport then [ReleaseAction.closeTransport sid] else []
  (⟨transports', timeouts'⟩, timerActs ++ closeActs)

/-- `createNewSession` (`streamable-http.ts:420-454`): the
`onsessioninitialized` callback stores the transport under the freshly
generated id and calls `setupSessionTimeout`. The generated UUID is passed
in as `newId`. -/
def createNewSession (opts : StreamableHttpServerOptions) (now : Nat)
    (st : ServerState) (newId : String) : ServerState :=
  setupSessionTimeout opts now
    { st with transports :=
        if st.transports.contains newId then st.transports else newId :: st.transports }
    newId

/-- The Node timer queue at wall-clock time `now`: every stored idle timer
whose firing time has been reached runs its callback, which is
`cleanupSession` for its session id (`streamable-http.ts:460-463`). -/
def fireDueTimers (now : Nat) (st : ServerState) : ServerState :=
  (st.sessionTimeouts.filter (fun p => decide (p.2 ≤ now))).foldl
    (fun s p => (cleanupSession s p.1).1) st

/-- HTTP verbs routed by `handleMCPRequest`. -/
inductive HttpMethod where
  | post
  | get
  | delete
  | other
  deriving DecidableEq, Repr

/-- An inbound request on the `/mcp` endpoint: verb, the
`mcp-session-id` header, and whether the body satisfies
`isInitializeRequest`. -/
structure MCPRequest where
  method : HttpMethod
  sessionId : Option String
  isInitialize : Bool
  deriving DecidableEq, Repr

/-- `handlePostRequest` (`streamable-http.ts:317-351`): reuse the transport
when the header names a live session (refreshing its idle timer); create a
session when there is no header and the body is an initialize request;
otherwise respond 400 `TRANSPORT_INVALID_SESSION`. -/
def handlePostRequest (opts : StreamableHttpServerOptions) (now : Nat)
    (st : ServerState) (req : MCPRequest) (newId : String) : MCPResponse × ServerState :=
  match req.sessionId with
  | some sid =>
    if st.transports.contains sid then
      (okResponse, refreshSessionTimeout opts now st sid)
    else
      (invalidSessionResponse, st)
  | none =>
    if req.isInitialize then
      (okResponse, createNewSession opts now st newId)
    else
      (invalidSessionResponse, st)

/-- `handleGetRequest` (`streamable-http.ts:356-381`): requires a live
session id; refreshes its idle timer and attaches the SSE stream. -/
def handleGetRequest (opts : StreamableHttpServerOptions) (now : Nat)
    (st : ServerState) (req : MCPRequest) : MCPResponse × ServerState :=
  match req.sessionId with
  | some sid =>
    if st.transports.contains sid then
      (okResponse, refreshSessionTimeout opts now st sid)
    else
      (invalidSessionResponse, st)
  | none => (invalidSessionResponse, st)

/-- `handleDeleteRequest` (`streamable-http.ts:386-415`): requires a live
session id; handles the termination request and always runs
`cleanupSession` in the `finally` block. -/
def handleDeleteRequest (_opts : StreamableHttpServerOptions) (_now : Nat)
    (st : ServerState) (req : MCPRequest) : MCPResponse × ServerState :=
  match req.sessionId with
  | some sid =>
    if st.transports.contains sid then
      (okResponse, (cleanupSession st sid).1)
    else
      (invalidSessionResponse, st)
  | none => (invalidSessionResponse, st)

/-- `handleMCPRequest` (`streamable-http.ts:276-312`): first the session
ceiling check — when `transports` already holds `maxConcurrentSessions`
entries the request is answered 503 `SERVER_OVERLOADED` — then dispatch on
the verb. -/
def handleMCPRequest (opts : StreamableHttpServerOptions) (now : Nat)
    (st : ServerState) (req : MCPRequest) (newId : String) : MCPResponse × ServerState :=
  if opts.maxConcurrentSessions ≤ st.transports.length then
    (overloadedResponse, st)
  else
    match req.method with
    | HttpMethod.post => handlePostRequest opts now st req newId
    | HttpMethod.get => handleGetRequest opts now st req
    | HttpMethod.delete => handleDeleteRequest opts now st req
    | HttpMethod.other => (methodNotAllowedResponse, st)

/-- A session-create request: POST, no session header, initialize body. -/
def initializeRequest : MCPRequest := ⟨HttpMethod.post, none, true⟩

/-- Dispatch a sequence of session-create requests through the MCP
endpoint, `ids` being the UUIDs the generator produces. -/
def runCreates (opts : StreamableHttpServerOptions) (now : Nat)
    (st : ServerState) (ids : List String) : ServerState :=
  ids.foldl (fun s i => (handleMCPRequest opts now s initializeRequest i).2) st

/-- The response of each request in a dispatched sequence of session-create
requests. -/
def createResponses (opts : StreamableHttpServerOptions) (now : Nat)
    (st : ServerState) : List String → List MCPResponse
  | [] => []
  | i :: ids =>
    (handleMCPRequest opts now st initializeRequest i).1 ::
      createResponses opts now (handleMCPRequest opts now st initializeRequest i).2 ids

/-- `stop` (`streamable-http.ts:532-598`), session-drain portion: snapshot
the session ids; for each, await `transport.close()` and, when it
succeeded, run `cleanupSession` — a close failure is caught and logged,
and `cleanupSession` is then not reached for that id (it sits after the
`await` inside the `try`). Afterwards every entry of `sessionTimeouts` is
cleared wholesale. `closeFails sid` says whether that session's `close()`
call rejects. -/
def stopSessions (closeFails : String → Bool) (st : ServerState) : ServerState :=
  let drained := st.transports.foldl
    (fun s sid => if closeFails sid then s else (cleanupSession s sid).1) st
  { drained with sessionTimeouts := [] }

/-- State of an Express response object: whether headers were sent, and the
envelope actually delivered to the caller together with the time it was
written. -/
structure ResState where
  headersSent : Bool
  sent : Option (Nat × MCPResponse)
  deriving DecidableEq, Repr

/-- A response on which nothing has been written yet. -/
def freshRes : ResState := ⟨false, none⟩

/-- A write attempt at time `t`: it takes effect only when no headers have
been sent yet (a later write is discarded by the `headersSent` guard). -/
def tryWrite (r : ResState) (t : Nat) (resp : MCPResponse) : ResState :=
  if r.headersSent then r else ⟨true, some (t, resp)⟩

/-- The callback of the request-timeout middleware
(`streamable-http.ts:100-111`): at the deadline, if `res.headersSent` is
still false, write the 408 `TRANSPORT_TIMEOUT` envelope. -/
def timeoutFire (deadline : Nat) (r : ResState) : ResState :=
  tryWrite r deadline timeoutResponse

/-- One request through the timeout middleware
(`streamable-http.ts:99-116`): the deadline is `reqStart +
requestTimeoutMs`; the underlying operation would write its own response
at time `opDone`. The two write attempts land in time order (at the
deadline the `finish` listener has already cleared the timer when the
operation responded first, which coincides with the `headersSent` guard
making the timer write a no-op). -/
def runExchange (opts : StreamableHttpServerOptions) (reqStart opDone : Nat)
    (opResponse : MCPResponse) : ResState :=
  let deadline := reqStart + opts.requestTimeoutMs
  if opDone ≤ deadline then
    timeoutFire deadline (tryWrite freshRes opDone opResponse)
  else
    tryWrite (timeoutFire deadline freshRes) opDone opResponse

/-- A session object of the SSE transport (`streamable-http.ts:616-623`
interface `SSESession`): its `isClosed` flag, whether its heartbeat
interval is currently scheduled (`heartbeatInterval !== undefined`), and
whether the id is still a key of the static `SSETransport.sessions`
record (`inMap`). -/
structure SSESession where
  id : String
  isClosed : Bool
  heartbeatActive : Bool
  inMap : Bool
  deriving DecidableEq, Repr

/-- `SSETransport.closeSession` (`streamable-http.ts:825-847`): look the
session up in the `sessions` record; when present and not yet closed, set
`isClosed`, clear the heartbeat interval, end the response, and delete the
record entry. Otherwise do nothing. -/
def closeSession (w : List SSESession) (sid : String) : List SSESession :=
  w.map (fun s =>
    if s.id == sid && s.inMap && !s.isClosed then
      { s with isClosed := true, heartbeatActive := false, inMap := false }
    else s)

/-- Clear a session object's heartbeat interval
(`SSEServerTransport.clearHeartbeat`, `streamable-http.ts:689-694`). -/
def clearHeartbeatOf (w : List SSESession) (sid : String) : List SSESession :=
  w.map (fun s => if s.id == sid then { s with heartbeatActive := false } else s)

/-- One firing of the heartbeat interval callback installed by
`SSEServerTransport.start` (`streamable-http.ts:642-655`) for session
`sid`: it can fire only while the interval is scheduled; if the session is
not closed it writes `:heartbeat` — a write error makes it clear the
interval and call `SSETransport.closeSession` — and if the session is
closed it clears the interval. Returns the new world and the ids a
heartbeat was written to. -/
def heartbeatFire (writeFails : String → Bool) (w : List SSESession)
    (sid : String) : List SSESession × List String :=
  match w.find? (fun s => s.id == sid) with
  | none => (w, [])
  | some s =>
    if !s.heartbeatActive then (w, [])
    else if !s.isClosed then
      if writeFails sid then
        (closeSession (clearHeartbeatOf w sid) sid, [])
      else
        (w, [sid])
    else
      (clearHeartbeatOf w sid, [])

/-- The fixed heartbeat period of `setInterval` in
`SSEServerTransport.start` (`streamable-http.ts:655`): 30000 ms. -/
def heartbeatIntervalMs : Nat := 30000

/-- The wall-clock time of the `(k+1)`-th heartbeat firing for a session
whose transport started at `startT`. -/
def heartbeatTime (startT k : Nat) : Nat := startT + heartbeatIntervalMs * (k + 1)

/-- Modelled from the spec: the rate limiter configuration of
`src/utils/rate-limiter.ts` (`RateLimitConfig`), whose source file is not
under `src/`; field names follow the repository's unit test
(`rateLimitConfig: windowMs, maxRequests`). Spec §4.1: window duration and
maximum requests per window per key. -/
structure RateLimitConfig where
  windowMs : Nat
  maxRequests : Nat
  deriving DecidableEq, Repr

/-- Modelled from the spec: a per-key fixed-window entry (spec §3 "Rate
Limit Window"): counter of requests in the current window and the window
start timestamp. -/
structure RateLimitEntry where
  count : Nat
  windowStart : Nat
  deriving DecidableEq, Repr

/-- Modelled from the spec: result of `admitRequest(key)` (spec §4.1):
`allowed`, `remaining`, `resetAt`. -/
structure AdmitResult where
  allowed : Bool
  remaining : Nat
  resetAt : Nat
  deriving DecidableEq, Repr

/-- The rate limiter's per-key table. -/
abbrev RateLimitState := List (String × RateLimitEntry)

/-- Modelled from the spec: `admitRequest` of the rate limiter
(`src/utils/rate-limiter.ts`, not under `src/`). Spec §4.1: fixed-window
counter keyed by client identity; if the current time has crossed the
stored window's end, the counter resets and the window start advances;
otherwise the counter increments and is compared against the maximum;
rejection reports `resetAt` as window start plus the window duration
(spec §8 scenario). -/
def admitRequest (cfg : RateLimitConfig) (now : Nat) (st : RateLimitState)
    (key : String) : AdmitResult × RateLimitState :=
  match mapGet st key with
  | none =>
    (⟨decide (1 ≤ cfg.maxRequests), cfg.maxRequests - 1, now + cfg.windowMs⟩,
      mapSet st key ⟨1, now⟩)
  | some e =>
    if e.windowStart + cfg.windowMs ≤ now then
      (⟨decide (1 ≤ cfg.maxRequests), cfg.maxRequests - 1, now + cfg.windowMs⟩,
        mapSet st key ⟨1, now⟩)
    else
      (⟨decide (e.count + 1 ≤ cfg.maxRequests), cfg.maxRequests - (e.count + 1),
          e.windowStart + cfg.windowMs⟩,
        mapSet st key ⟨e.count + 1, e.windowStart⟩)

/-- Run `admitRequest` for one key at a sequence of call times, collecting each
call's result. -/
def admitSeq (cfg : RateLimitConfig) (st : RateLimitState) (key : String) :
    List Nat → List AdmitResult × RateLimitState
  | [] => ([], st)
  | t :: ts =>
    ((admitRequest cfg t st key).1 :: (admitSeq cfg (admitRequest cfg t st key).2 key ts).1,
      (admitSeq cfg (admitRequest cfg t st key).2 key ts).2)

/-- The full middleware pipeline in front of the `/mcp` route
(`setupMiddleware`, `streamable-http.ts:75-183`, then `setupRoutes`): when
a `rateLimitConfig` is supplied, `app.use(this.rateLimiter.middleware)` is
installed before the route handler, so the rate limiter is consulted for
every inbound request and a rejected request is answered 429 before
`handleMCPRequest` ever runs; an admitted request (or any request when no
rate limit is configured) proceeds to `handleMCPRequest`. -/
def handleHttpRequest (opts : StreamableHttpServerOptions)
    (rateCfg : Option RateLimitConfig) (now : Nat) (rl : RateLimitState)
    (st : ServerState) (req : MCPRequest) (key newId : String) :
    MCPResponse × RateLimitState × ServerState :=
  match rateCfg with
  | some cfg =>
    if (admitRequest cfg now rl key).1.allowed then
      ((handleMCPRequest opts now st req newId).1, (admitRequest cfg now rl key).2,
        (handleMCPRequest opts now st req newId).2)
    else
      (rateLimitedResponse, (admitRequest cfg now rl key).2, st)
  | none =>
    ((handleMCPRequest opts now st req newId).1, rl,
      (handleMCPRequest opts now st req newId).2)

/-! Association-list lemmas shared by the session registry and the rate
limiter proofs. -/

theorem mapGet_mapSet_self {β : Type} (m : List (String × β)) (k : String) (v : β) :
    mapGet (mapSet m k v) k = some v := by
  simp [mapGet, mapSet]

theorem find?_filter_none {α : Type} (m : List α) (p q : α → Bool)
    (h : m.find? p = none) : (m.filter q).find? p = none := by
  rw [List.find?_eq_none] at h ⊢
  exact fun x hx => h x (List.mem_filter.1 hx).1

theorem mapGet_mapDel_self {β : Type} (m : List (String × β)) (k : String) :
    mapGet (mapDel m k) k = none := by
  rw [mapGet, Option.map_eq_none']
  rw [List.find?_eq_none]
  intro p hp
  have hp2 := (List.mem_filter.1 hp).2
  simp only [bne_iff_ne, ne_eq, decide_eq_true_eq] at hp2
  simp [hp2]

theorem mapGet_mapDel_none {β : Type} (m : List (String × β)) (k x : String)
    (h : mapGet m k = none) : mapGet (mapDel m x) k = none := by
  rw [mapGet, Option.map_eq_none'] at h ⊢
  exact find?_filter_none m _ _ h

theorem contains_filter_self (l : List String) (k : String) :
    (l.filter (fun s => s != k)).contains k = false := by
  simp

theorem contains_filter_false (l : List String) (k x : String)
    (h : l.contains k = false) : (l.filter (fun s => s != x)).contains k = false := by
  have h' : k ∉ l := by simpa using h
  have hres : k ∉ l.filter (fun s => s != x) := fun hk => h' (List.mem_filter.1 hk).1
  simpa using hres

theorem contains_filter_true (l : List String) (k x : String) (hk : k ≠ x)
    (h : l.contains k = true) : (l.filter (fun s => s != x)).contains k = true := by
  have h' : k ∈ l := by simpa using h
  have hres : k ∈ l.filter (fun s => s != x) := List.mem_filter.2 ⟨h', by simp [hk]⟩
  simpa using hres

/-! Lemmas about `cleanupSession`. -/

theorem cleanupSession_transports_eq (st : ServerState) (x : String) :
    (cleanupSession st x).1.transports =
      if st.transports.contains x then st.transports.filter (fun s => s != x)
      else st.transports := rfl

theorem cleanupSession_timeouts_eq (st : ServerState) (x : String) :
    (cleanupSession st x).1.sessionTimeouts =
      if (mapGet st.sessionTimeouts x).isSome then mapDel st.sessionTimeouts x
      else st.sessionTimeouts := rfl

theorem cleanupSession_contains_self (st : ServerState) (sid : String) :
    (cleanupSession st sid).1.transports.contains sid = false := by
  rw [cleanupSession_transports_eq]
  by_cases h : st.transports.contains sid = true
  · rw [if_pos h]
    exact contains_filter_self _ _
  · rw [if_neg h]
    simpa using h

theorem cleanupSession_timer_self (st : ServerState) (sid : String) :
    mapGet (cleanupSession st sid).1.sessionTimeouts sid = none := by
  rw [cleanupSession_timeouts_eq]
  by_cases h : (mapGet st.sessionTimeouts sid).isSome = true
  · rw [if_pos h]
    exact mapGet_mapDel_self _ _
  · rw [if_neg h]
    exact Option.not_isSome_iff_eq_none.1 h

theorem cleanupSession_noop (st : ServerState) (sid : String)
    (h1 : mapGet st.sessionTimeouts sid = none)
    (h2 : st.transports.contains sid = false) :
    cleanupSession st sid = (st, []) := by
  have h2' : sid ∉ st.transports := by simpa using h2
  simp [cleanupSession, h1, h2']

theorem cleanupSession_preserves_absent (st : ServerState) (sid x : String)
    (h : st.transports.contains sid = false) :
    (cleanupSession st x).1.transports.contains sid = false := by
  rw [cleanupSession_transports_eq]
  by_cases hx : st.transports.contains x = true
  · rw [if_pos hx]
    exact contains_filter_false _ _ _ h
  · rw [if_neg hx]
    exact h

theorem cleanupSession_preserves_no_timer (st : ServerState) (sid x : String)
    (h : mapGet st.sessionTimeouts sid = none) :
    mapGet (cleanupSession st x).1.sessionTimeouts sid = none := by
  rw [cleanupSession_timeouts_eq]
  by_cases hx : (mapGet st.sessionTimeouts x).isSome = true
  · rw [if_pos hx]
    exact mapGet_mapDel_none _ _ _ h
  · rw [if_neg hx]
    exact h

theorem cleanupSession_preserves_present (st : ServerState) (sid x : String)
    (hne : sid ≠ x) (h : st.transports.contains sid = true) :
    (cleanupSession st x).1.transports.contains sid = true := by
  rw [cleanupSession_transports_eq]
  by_cases hx : st.transports.contains x = true
  · rw [if_pos hx]
    exact contains_filter_true _ _ _ hne h
  · rw [if_neg hx]
    exact h

/-! Lemmas about the idle-timer queue (`fireDueTimers`). -/

theorem foldCleanup_preserves_absent (ps : List (String × Nat)) :
    ∀ (st : ServerState) (sid : String),
      st.transports.contains sid = false →
      mapGet st.sessionTimeouts sid = none →
      ((ps.foldl (fun s p => (cleanupSession s p.1).1) st).transports.contains sid = false) ∧
      mapGet (ps.foldl (fun s p => (cleanupSession s p.1).1) st).sessionTimeouts sid = none := by
  induction ps with
  | nil => exact fun st sid h1 h2 => ⟨h1, h2⟩
  | cons p rest ih =>
    intro st sid h1 h2
    simp only [List.foldl_cons]
    exact ih _ sid (cleanupSession_preserves_absent st sid p.1 h1)
      (cleanupSession_preserves_no_timer st sid p.1 h2)

theorem foldCleanup_preserves_present (ps : List (String × Nat)) :
    ∀ (st : ServerState) (sid : String), (∀ p ∈ ps, p.1 ≠ sid) →
      st.transports.contains sid = true →
      (ps.foldl (fun s p => (cleanupSession s p.1).1) st).transports.contains sid = true := by
  induction ps with
  | nil => exact fun st sid _ h => h
  | cons p rest ih =>
    intro st sid hkeys h
    simp only [List.foldl_cons]
    exact ih _ sid (fun q hq => hkeys q (List.mem_cons_of_mem p hq))
      (cleanupSession_preserves_present st sid p.1
        (Ne.symm (hkeys p (List.mem_cons_self p rest))) h)

theorem foldCleanup_removes (ps : List (String × Nat)) :
    ∀ (st : ServerState) (sid : String), sid ∈ ps.map Prod.fst →
      ((ps.foldl (fun s p => (cleanupSession s p.1).1) st).transports.contains sid = false) ∧
      mapGet (ps.foldl (fun s p => (cleanupSession s p.1).1) st).sessionTimeouts sid = none := by
  induction ps with
  | nil => intro st sid h; exact absurd h (List.not_mem_nil sid)
  | cons p rest ih =>
    intro st sid hmem
    simp only [List.foldl_cons]
    by_cases hp : p.1 = sid
    · rw [hp]
      exact foldCleanup_preserves_absent rest _ sid
        (cleanupSession_contains_self st sid) (cleanupSession_timer_self st sid)
    · apply ih
      rcases List.mem_map.1 hmem with ⟨q, hq, hq1⟩
      rcases List.mem_cons.1 hq with rfl | hq'
      · exact absurd hq1 hp
      · exact List.mem_map.2 ⟨q, hq', hq1⟩

theorem fireDueTimers_evicts (now : Nat) (st : ServerState) (sid : String) (e : Nat)
    (hmem : (sid, e) ∈ st.sessionTimeouts) (he : e ≤ now) :
    ((fireDueTimers now st).transports.contains sid = false) ∧
    mapGet (fireDueTimers now st).sessionTimeouts sid = none := by
  apply foldCleanup_removes
  exact List.mem_map.2 ⟨(sid, e), List.mem_filter.2 ⟨hmem, by simpa using he⟩, rfl⟩

theorem fireDueTimers_survives (now : Nat) (st : ServerState) (sid : String)
    (hmem : st.transports.contains sid = true)
    (hkeys : ∀ p ∈ st.sessionTimeouts, p.1 = sid → ¬ (p.2 ≤ now)) :
    (fireDueTimers now st).transports.contains sid = true := by
  apply foldCleanup_preserves_present _ _ _ _ hmem
  intro p hp hp1
  have hmf := List.mem_filter.1 hp
  exact hkeys p hmf.1 hp1 (by simpa using hmf.2)

theorem mapSet_key_val {β : Type} (m : List (String × β)) (k : String) (v : β) :
    ∀ p ∈ mapSet m k v, p.1 = k → p.2 = v := by
  intro p hp hk
  rcases List.mem_cons.1 hp with rfl | hmem
  · rfl
  · have h2 := (List.mem_filter.1 hmem).2
    simp only [bne_iff_ne, ne_eq, decide_eq_true_eq] at h2
    exact absurd hk h2

/-- The ceiling check of `handleMCPRequest` fires before any verb dispatch:
at or above capacity every request is answered 503 and the registry is
untouched. -/
theorem handleMCP_at_capacity (opts : StreamableHttpServerOptions) (now : Nat)
    (st : ServerState) (req : MCPRequest) (newId : String)
    (h : opts.maxConcurrentSessions ≤ st.transports.length) :
    handleMCPRequest opts now st req newId = (overloadedResponse, st) := by
  simp [handleMCPRequest, h]

/-- C5: eviction is idempotent — a second `cleanupSession` on the same
identifier (present in the registry beforehand or not) raises no error (the
embedding is a total function, as the source wraps the body in try/catch),
performs no release action at all (so neither the idle timer nor the
streaming channel is released twice), and leaves the registry state exactly
as it was after the first call. -/
theorem cleanup_idempotent (st : ServerState) (sid : String) :
    cleanupSession (cleanupSession st sid).1 sid = ((cleanupSession st sid).1, []) :=
  cleanupSession_noop _ _ (cleanupSession_timer_self st sid)
    (cleanupSession_contains_self st sid)

/-- C10: whenever the open-session count is at or above
`maxConcurrentSessions`, `handleMCPRequest` answers 503 `SERVER_OVERLOADED`
for every request — any verb, any session header, initialize or not — and
leaves the registry unchanged, so no existing session can be served,
refreshed or terminated through the MCP endpoint while the ceiling is
reached. -/
theorem capacity_rejects_all_requests (opts : StreamableHttpServerOptions)
    (now : Nat) (st : ServerState) (req : MCPRequest) (newId : String)
    (h : opts.maxConcurrentSessions ≤ st.transports.length) :
    handleMCPRequest opts now st req newId = (overloadedResponse, st) := by
  simp [handleMCPRequest, h]

/-- Witness for `capacity_rejects_all_requests`: a registry at its ceiling
of 1 session rejects even the DELETE termination request of that very
session. -/
theorem capacity_rejects_all_requests_witness :
    ((⟨1, 1000, 30000⟩ : StreamableHttpServerOptions).maxConcurrentSessions ≤
      (⟨["a"], [("a", 1000)]⟩ : ServerState).transports.length) ∧
    handleMCPRequest ⟨1, 1000, 30000⟩ 0 ⟨["a"], [("a", 1000)]⟩
        ⟨HttpMethod.delete, some "a", false⟩ "z" =
      (overloadedResponse, ⟨["a"], [("a", 1000)]⟩) :=
  ⟨by decide,
    capacity_rejects_all_requests ⟨1, 1000, 30000⟩ 0 ⟨["a"], [("a", 1000)]⟩
      ⟨HttpMethod.delete, some "a", false⟩ "z" (by decide)⟩

/-- C3: evaluation of the shutdown drain at a registry of three open
sessions of which session `b`'s `close()` call rejects. `stop` clears every
idle timer and cleans the two sessions whose close succeeded, but — because
`cleanupSession` sits after the awaited `close()` inside the `try` block —
the catch path skips the map removal for `b`, so the session map still
holds `b` afterwards instead of being empty. -/
theorem stop_leaves_entry_when_close_fails :
    stopSessions (fun s => s == "b")
        ⟨["a", "b", "c"], [("a", 10), ("b", 10), ("c", 10)]⟩ =
      ⟨["b"], []⟩ := by decide

/-- C4 counterexample: a request arriving at the session ceiling is NOT
answered `Overloaded` without the rate limiter being consulted. With a rate
limit of 1 per window and key `k` already at its limit, the registry being
at its ceiling of 1 session, the pipeline's answer is 429 `RateLimited`
(the middleware runs before the route handler, `streamable-http.ts:93-96`),
not 503 `SERVER_OVERLOADED`, and the limiter's table is updated for the
request. -/
theorem overloaded_not_before_rate_limiter :
    ((⟨1, 1000, 30000⟩ : StreamableHttpServerOptions).maxConcurrentSessions ≤
      (⟨["a"], []⟩ : ServerState).transports.length) ∧
    (handleHttpRequest ⟨1, 1000, 30000⟩ (some ⟨1000, 1⟩) 500 [("k", ⟨1, 0⟩)]
        ⟨["a"], []⟩ ⟨HttpMethod.post, none, true⟩ "k" "z").1 ≠ overloadedResponse ∧
    (handleHttpRequest ⟨1, 1000, 30000⟩ (some ⟨1000, 1⟩) 500 [("k", ⟨1, 0⟩)]
        ⟨["a"], []⟩ ⟨HttpMethod.post, none, true⟩ "k" "z").1 = rateLimitedResponse ∧
    (handleHttpRequest ⟨1, 1000, 30000⟩ (some ⟨1000, 1⟩) 500 [("k", ⟨1, 0⟩)]
        ⟨["a"], []⟩ ⟨HttpMethod.post, none, true⟩ "k" "z").2.1 ≠ [("k", ⟨1, 0⟩)] := by
  exact ⟨by decide, by decide, by decide, by decide⟩

/-- A freshly created session is registered in the transports map. -/
theorem createNewSession_contains_self (opts : StreamableHttpServerOptions)
    (now : Nat) (st : ServerState) (sid : String) :
    (createNewSession opts now st sid).transports.contains sid = true := by
  show (if st.transports.contains sid then st.transports
    else sid :: st.transports).contains sid = true
  by_cases h : st.transports.contains sid = true
  · rw [if_pos h]; exact h
  · rw [if_neg h]; simp

theorem createNewSession_timeouts_eq (opts : StreamableHttpServerOptions)
    (now : Nat) (st : ServerState) (sid : String) :
    (createNewSession opts now st sid).sessionTimeouts =
      mapSet st.sessionTimeouts sid (now + opts.sessionTimeoutMs) := rfl

theorem refreshSessionTimeout_timeouts_eq (opts : StreamableHttpServerOptions)
    (now : Nat) (st : ServerState) (sid : String) :
    (refreshSessionTimeout opts now st sid).sessionTimeouts =
      mapSet st.sessionTimeouts sid (now + opts.sessionTimeoutMs) := rfl

theorem refreshSessionTimeout_transports_eq (opts : StreamableHttpServerOptions)
    (now : Nat) (st : ServerState) (sid : String) :
    (refreshSessionTimeout opts now st sid).transports = st.transports := rfl

theorem mem_mapSet_self {β : Type} (m : List (String × β)) (k : String) (v : β) :
    (k, v) ∈ mapSet m k v := List.mem_cons_self _ _

/-- C2: a session created at `t0` whose idle timer is never refreshed is
evicted automatically once the timer queue runs at any time from
`t0 + sessionTimeoutMs` on (its entry removed from the session map and its
timer gone from the timeout map); a session refreshed at `t1` before that
expiry still has its entry when the queue runs at any time before
`t1 + sessionTimeoutMs` — the timer restarts counting the full idle
duration from the refresh point, as its stored firing time is exactly
`t1 + sessionTimeoutMs` — and is evicted from that refreshed expiry on. -/
theorem idle_timeout_lifecycle (opts : StreamableHttpServerOptions)
    (st : ServerState) (sid : String) (t0 t1 : Nat)
    (h01 : t0 ≤ t1) (h1exp : t1 < t0 + opts.sessionTimeoutMs) :
    (∀ t, t0 + opts.sessionTimeoutMs ≤ t →
      ((fireDueTimers t (createNewSession opts t0 st sid)).transports.contains sid
          = false) ∧
      mapGet (fireDueTimers t (createNewSession opts t0 st sid)).sessionTimeouts sid
        = none) ∧
    (mapGet (refreshSessionTimeout opts t1
        (createNewSession opts t0 st sid) sid).sessionTimeouts sid =
      some (t1 + opts.sessionTimeoutMs)) ∧
    (∀ t, t < t1 + opts.sessionTimeoutMs →
      (fireDueTimers t (refreshSessionTimeout opts t1
          (createNewSession opts t0 st sid) sid)).transports.contains sid = true) ∧
    (∀ t, t1 + opts.sessionTimeoutMs ≤ t →
      (fireDueTimers t (refreshSessionTimeout opts t1
          (createNewSession opts t0 st sid) sid)).transports.contains sid = false) := by
  refine ⟨?_, ?_, ?_, ?_⟩
  · intro t ht
    apply fireDueTimers_evicts t _ sid (t0 + opts.sessionTimeoutMs) _ ht
    rw [createNewSession_timeouts_eq]
    exact mem_mapSet_self _ _ _
  · rw [refreshSessionTimeout_timeouts_eq]
    exact mapGet_mapSet_self _ _ _
  · intro t ht
    apply fireDueTimers_survives
    · rw [refreshSessionTimeout_transports_eq]
      exact createNewSession_contains_self opts t0 st sid
    · intro p hp hp1
      rw [refreshSessionTimeout_timeouts_eq] at hp
      have hv := mapSet_key_val _ _ _ p hp hp1
      rw [hv]
      omega
  · intro t ht
    refine (fireDueTimers_evicts t _ sid (t1 + opts.sessionTimeoutMs) ?_ ht).1
    rw [refreshSessionTimeout_timeouts_eq]
    exact mem_mapSet_self _ _ _

/-- Witness for `idle_timeout_lifecycle`: with a 1000 ms idle timeout, a
session created at 0 and not refreshed is gone when the timers run at
1000; refreshed at 900 it is still there at 1500 and gone at 1900. -/
theorem idle_timeout_lifecycle_witness :
    (0 ≤ 900 ∧
      900 < 0 + (⟨10, 1000, 30000⟩ : StreamableHttpServerOptions).sessionTimeoutMs) ∧
    ((fireDueTimers 1000
        (createNewSession ⟨10, 1000, 30000⟩ 0 emptyServerState "a")).transports.contains
      "a" = false) ∧
    ((fireDueTimers 1500 (refreshSessionTimeout ⟨10, 1000, 30000⟩ 900
        (createNewSession ⟨10, 1000, 30000⟩ 0 emptyServerState "a") "a")).transports.contains
      "a" = true) ∧
    ((fireDueTimers 1900 (refreshSessionTimeout ⟨10, 1000, 30000⟩ 900
        (createNewSession ⟨10, 1000, 30000⟩ 0 emptyServerState "a") "a")).transports.contains
      "a" = false) := by
  have h := idle_timeout_lifecycle ⟨10, 1000, 30000⟩ emptyServerState "a" 0 900
    (by decide) (by decide)
  exact ⟨⟨by decide, by decide⟩, (h.1 1000 (by decide)).1,
    h.2.2.1 1500 (by decide), h.2.2.2 1900 (by decide)⟩

/-- C6: when the underlying operation would only respond after the
configured deadline, the caller receives the 408 `TRANSPORT_TIMEOUT`
envelope exactly at the deadline `reqStart + requestTimeoutMs`; the
operation's own later write is discarded by the `headersSent` guard, and
whatever was delivered to the caller was delivered no later than the
deadline (the caller is never blocked past it). -/
theorem request_timeout_deadline (opts : StreamableHttpServerOptions)
    (reqStart opDone : Nat) (opResponse : MCPResponse)
    (hlate : reqStart + opts.requestTimeoutMs < opDone) :
    runExchange opts reqStart opDone opResponse =
      ⟨true, some (reqStart + opts.requestTimeoutMs, timeoutResponse)⟩ ∧
    ∀ t r, (runExchange opts reqStart opDone opResponse).sent = some (t, r) →
      t ≤ reqStart + opts.requestTimeoutMs := by
  have hn : ¬ opDone ≤ reqStart + opts.requestTimeoutMs := Nat.not_le.mpr hlate
  have heq : runExchange opts reqStart opDone opResponse =
      ⟨true, some (reqStart + opts.requestTimeoutMs, timeoutResponse)⟩ := by
    simp [runExchange, hn, timeoutFire, tryWrite, freshRes]
  refine ⟨heq, ?_⟩
  intro t r h
  rw [heq] at h
  simp only [Option.some.injEq, Prod.mk.injEq] at h
  exact Nat.le_of_eq h.1.symm

/-- Witness for `request_timeout_deadline`: a 500 ms deadline on a request
whose operation would respond at 700 yields the 408 envelope at time 600. -/
theorem request_timeout_deadline_witness :
    (100 + (⟨1, 1000, 500⟩ : StreamableHttpServerOptions).requestTimeoutMs < 700) ∧
    runExchange ⟨1, 1000, 500⟩ 100 700 okResponse =
      ⟨true, some (100 + (⟨1, 1000, 500⟩ : StreamableHttpServerOptions).requestTimeoutMs,
        timeoutResponse)⟩ :=
  ⟨by decide, (request_timeout_deadline ⟨1, 1000, 500⟩ 100 700 okResponse (by decide)).1⟩

/-- `handlePostRequest` only ever adds the freshly generated id, and only
on the no-header initialize path. -/
theorem handlePostRequest_transports (opts : StreamableHttpServerOptions)
    (now : Nat) (st : ServerState) (req : MCPRequest) (newId x : String)
    (hx : x ∈ (handlePostRequest opts now st req newId).2.transports) :
    x ∈ st.transports ∨ (req.sessionId = none ∧ req.isInitialize = true ∧ x = newId) := by
  rcases hs : req.sessionId with _ | sid
  · simp only [handlePostRequest, hs] at hx
    by_cases hi : req.isInitialize = true
    · rw [if_pos hi] at hx
      have hx' : x ∈ (createNewSession opts now st newId).transports := hx
      rw [show (createNewSession opts now st newId).transports =
          (if st.transports.contains newId then st.transports
            else newId :: st.transports) from rfl] at hx'
      by_cases hc : st.transports.contains newId = true
      · rw [if_pos hc] at hx'
        exact Or.inl hx'
      · rw [if_neg hc] at hx'
        rcases List.mem_cons.1 hx' with rfl | hmem
        · exact Or.inr ⟨rfl, hi, rfl⟩
        · exact Or.inl hmem
    · rw [if_neg hi] at hx
      exact Or.inl hx
  · simp only [handlePostRequest, hs] at hx
    by_cases hc : st.transports.contains sid = true
    · rw [if_pos hc] at hx
      exact Or.inl hx
    · rw [if_neg hc] at hx
      exact Or.inl hx

/-- `handleGetRequest` never adds a session. -/
theorem handleGetRequest_transports (opts : StreamableHttpServerOptions)
    (now : Nat) (st : ServerState) (req : MCPRequest) (x : String)
    (hx : x ∈ (handleGetRequest opts now st req).2.transports) :
    x ∈ st.transports := by
  rcases hs : req.sessionId with _ | sid
  · simp only [handleGetRequest, hs] at hx
    exact hx
  · simp only [handleGetRequest, hs] at hx
    by_cases hc : st.transports.contains sid = true
    · rw [if_pos hc] at hx
      exact hx
    · rw [if_neg hc] at hx
      exact hx

/-- `handleDeleteRequest` never adds a session. -/
theorem handleDeleteRequest_transports (opts : StreamableHttpServerOptions)
    (now : Nat) (st : ServerState) (req : MCPRequest) (x : String)
    (hx : x ∈ (handleDeleteRequest opts now st req).2.transports) :
    x ∈ st.transports := by
  rcases hs : req.sessionId with _ | sid
  · simp only [handleDeleteRequest, hs] at hx
    exact hx
  · simp only [handleDeleteRequest, hs] at hx
    by_cases hc : st.transports.contains sid = true
    · rw [if_pos hc] at hx
      rw [cleanupSession_transports_eq] at hx
      by_cases hc2 : st.transports.contains sid = true
      · rw [if_pos hc2] at hx
        exact (List.mem_filter.1 hx).1
      · rw [if_neg hc2] at hx
        exact hx
    · rw [if_neg hc] at hx
      exact hx

/-- C7: a request whose session header names an identifier absent from the
registry is answered 400 `TRANSPORT_INVALID_SESSION` with the registry
unchanged (POST, GET and DELETE alike); a POST with no session header and a
non-initialize body is likewise answered 400; and the only way any
identifier ever enters the session map through the MCP endpoint is a POST
with no session header and an initialize body, which adds exactly the
freshly generated id. -/
theorem invalid_session_handling (opts : StreamableHttpServerOptions) (now : Nat)
    (st : ServerState) (req : MCPRequest) (newId : String) :
    (∀ sid, req.sessionId = some sid → st.transports.contains sid = false →
      handlePostRequest opts now st req newId = (invalidSessionResponse, st) ∧
      handleGetRequest opts now st req = (invalidSessionResponse, st) ∧
      handleDeleteRequest opts now st req = (invalidSessionResponse, st)) ∧
    (req.sessionId = none → req.isInitialize = false →
      handlePostRequest opts now st req newId = (invalidSessionResponse, st)) ∧
    (∀ x, x ∈ (handleMCPRequest opts now st req newId).2.transports →
      x ∈ st.transports ∨
        (req.method = HttpMethod.post ∧ req.sessionId = none ∧
          req.isInitialize = true ∧ x = newId)) := by
  refine ⟨?_, ?_, ?_⟩
  · intro sid hsid hc
    have hc' : ¬ st.transports.contains sid = true := by
      rw [hc]
      exact Bool.false_ne_true
    refine ⟨?_, ?_, ?_⟩
    · simp only [handlePostRequest, hsid]
      rw [if_neg hc']
    · simp only [handleGetRequest, hsid]
      rw [if_neg hc']
    · simp only [handleDeleteRequest, hsid]
      rw [if_neg hc']
  · intro hnone hinit
    have hi' : ¬ req.isInitialize = true := by simp [hinit]
    simp only [handlePostRequest, hnone]
    rw [if_neg hi']
  · intro x hx
    by_cases hcap : opts.maxConcurrentSessions ≤ st.transports.length
    · rw [handleMCP_at_capacity opts now st req newId hcap] at hx
      exact Or.inl hx
    · rw [handleMCPRequest, if_neg hcap] at hx
      rcases hm : req.method with _ | _ | _ | _
      all_goals rw [hm] at hx
      · rcases handlePostRequest_transports opts now st req newId x hx with h | h
        · exact Or.inl h
        · exact Or.inr ⟨rfl, h⟩
      · exact Or.inl (handleGetRequest_transports opts now st req x hx)
      · exact Or.inl (handleDeleteRequest_transports opts now st req x hx)
      · exact Or.inl hx

/-- A create request under capacity with a fresh id succeeds and registers
exactly that id. -/
theorem handleCreate_success (opts : StreamableHttpServerOptions) (now : Nat)
    (st : ServerState) (newId : String)
    (hlt : st.transports.length < opts.maxConcurrentSessions)
    (hfresh : st.transports.contains newId = false) :
    (handleMCPRequest opts now st initializeRequest newId).1 = okResponse ∧
    (handleMCPRequest opts now st initializeRequest newId).2.transports =
      newId :: st.transports := by
  have hcap : ¬ opts.maxConcurrentSessions ≤ st.transports.length := Nat.not_le.mpr hlt
  have hc' : ¬ st.transports.contains newId = true := by
    rw [hfresh]
    exact Bool.false_ne_true
  have hpost : handlePostRequest opts now st initializeRequest newId =
      (okResponse, createNewSession opts now st newId) := by
    simp [handlePostRequest, initializeRequest]
  have hmain : handleMCPRequest opts now st initializeRequest newId =
      (okResponse, createNewSession opts now st newId) := by
    rw [handleMCPRequest, if_neg hcap]
    exact hpost
  rw [hmain]
  refine ⟨rfl, ?_⟩
  show (if st.transports.contains newId then st.transports
    else newId :: st.transports) = newId :: st.transports
  rw [if_neg hc']

/-- Joint characterization of a dispatched create sequence: starting from
any under-capacity registry none of whose future ids are taken, the final
session count is the minimum of the demanded count and the ceiling, and
the `k`-th create is answered 200 exactly while the running count was
below the ceiling, 503 `SERVER_OVERLOADED` otherwise. -/
theorem createRun_spec (opts : StreamableHttpServerOptions) (now : Nat)
    (ids : List String) :
    ∀ (st : ServerState), ids.Nodup →
      (∀ i ∈ ids, st.transports.contains i = false) →
      st.transports.length ≤ opts.maxConcurrentSessions →
      ((runCreates opts now st ids).transports.length =
        min (st.transports.length + ids.length) opts.maxConcurrentSessions) ∧
      (∀ k, k < ids.length →
        (createResponses opts now st ids)[k]? =
          some (if st.transports.length + k < opts.maxConcurrentSessions
            then okResponse else overloadedResponse)) := by
  induction ids with
  | nil =>
    intro st _ _ hle
    constructor
    · simp only [runCreates, List.foldl_nil, List.length_nil]
      omega
    · intro k hk
      exact absurd hk (Nat.not_lt_zero k)
  | cons i rest ih =>
    intro st hnd hfresh hle
    by_cases hcap : st.transports.length < opts.maxConcurrentSessions
    · have hfi : st.transports.contains i = false := hfresh i (List.mem_cons_self i rest)
      obtain ⟨hresp, htr⟩ := handleCreate_success opts now st i hcap hfi
      have hlen' : (handleMCPRequest opts now st initializeRequest i).2.transports.length
          = st.transports.length + 1 := by
        rw [htr, List.length_cons]
      have hfresh' : ∀ x ∈ rest,
          (handleMCPRequest opts now st initializeRequest i).2.transports.contains x
            = false := by
        intro x hx
        have hxi : x ≠ i := fun e => (List.nodup_cons.1 hnd).1 (e ▸ hx)
        have hxm : x ∉ st.transports := by
          simpa using hfresh x (List.mem_cons_of_mem i hx)
        rw [htr, List.contains_cons]
        simp [hxi, hxm]
      obtain ⟨ih1, ih2⟩ := ih _ (List.nodup_cons.1 hnd).2 hfresh' (by rw [hlen']; omega)
      constructor
      · have hrun : runCreates opts now st (i :: rest) =
            runCreates opts now (handleMCPRequest opts now st initializeRequest i).2 rest := by
          simp [runCreates]
        rw [hrun, ih1, hlen', List.length_cons]
        omega
      · intro k hk
        have hcr : createResponses opts now st (i :: rest) =
            okResponse ::
              createResponses opts now (handleMCPRequest opts now st initializeRequest i).2
                rest := by
          rw [createResponses, hresp]
        rw [hcr]
        cases k with
        | zero =>
          rw [List.getElem?_cons_zero, if_pos (by omega)]
        | succ k' =>
          rw [List.getElem?_cons_succ, ih2 k' (by simpa using hk), hlen']
          have harith : st.transports.length + 1 + k' = st.transports.length + (k' + 1) := by
            omega
          rw [harith]
    · have hcap' : opts.maxConcurrentSessions ≤ st.transports.length := Nat.le_of_not_lt hcap
      have hstep := handleMCP_at_capacity opts now st initializeRequest i hcap'
      obtain ⟨ih1, ih2⟩ := ih st (List.nodup_cons.1 hnd).2
        (fun x hx => hfresh x (List.mem_cons_of_mem i hx)) hle
      constructor
      · have hrun : runCreates opts now st (i :: rest) = runCreates opts now st rest := by
          simp [runCreates, hstep]
        rw [hrun, ih1, List.length_cons]
        omega
      · intro k hk
        have hcr : createResponses opts now st (i :: rest) =
            overloadedResponse :: createResponses opts now st rest := by
          simp [createResponses, hstep]
        rw [hcr]
        cases k with
        | zero =>
          rw [List.getElem?_cons_zero, if_neg (by omega)]
        | succ k' =>
          rw [List.getElem?_cons_succ, ih2 k' (by simpa using hk)]
          have h1 : ¬ st.transports.length + k' < opts.maxConcurrentSessions := by omega
          have h2 : ¬ st.transports.length + (k' + 1) < opts.maxConcurrentSessions := by
            omega
          rw [if_neg h1, if_neg h2]

/-- C1: dispatching any sequence of session-create requests (with the
distinct UUIDs the generator produces) through the MCP endpoint from an
empty registry, the `k`-th create is answered 200 while fewer than
`maxConcurrentSessions` sessions are open, the create attempted once the
count has reached the ceiling is answered 503 `SERVER_OVERLOADED`, and the
number of entries in the session map never exceeds the ceiling at any
point of the sequence. -/
theorem create_sequence_ceiling (opts : StreamableHttpServerOptions) (now : Nat)
    (ids : List String) (hnd : ids.Nodup) :
    (∀ k, k < ids.length →
      (createResponses opts now emptyServerState ids)[k]? =
        some (if k < opts.maxConcurrentSessions then okResponse
          else overloadedResponse)) ∧
    (∀ k, (runCreates opts now emptyServerState (ids.take k)).transports.length ≤
      opts.maxConcurrentSessions) := by
  constructor
  · intro k hk
    have h := (createRun_spec opts now ids emptyServerState hnd
      (fun i _ => rfl) (Nat.zero_le _)).2 k hk
    simpa [emptyServerState] using h
  · intro k
    have hnd' : (ids.take k).Nodup := List.Nodup.sublist (List.take_sublist k ids) hnd
    have h := (createRun_spec opts now (ids.take k) emptyServerState hnd'
      (fun i _ => rfl) (Nat.zero_le _)).1
    rw [h]
    simp only [emptyServerState, List.length_nil]
    omega

/-- Witness for `create_sequence_ceiling`: with a ceiling of 2, the
second create of the sequence `a, b, c` is answered 200 and the third 503,
and no prefix of the run ever holds more than 2 sessions. -/
theorem create_sequence_ceiling_witness :
    (["a", "b", "c"] : List String).Nodup ∧
    (createResponses ⟨2, 1000, 30000⟩ 0 emptyServerState ["a", "b", "c"])[1]? =
      some okResponse ∧
    (createResponses ⟨2, 1000, 30000⟩ 0 emptyServerState ["a", "b", "c"])[2]? =
      some overloadedResponse ∧
    (runCreates ⟨2, 1000, 30000⟩ 0 emptyServerState
      (["a", "b", "c"].take 3)).transports.length ≤ 2 := by
  have h := create_sequence_ceiling ⟨2, 1000, 30000⟩ 0 ["a", "b", "c"] (by decide)
  refine ⟨by decide, ?_, ?_, h.2 3⟩
  · have h1 := h.1 1 (by decide)
    simpa using h1
  · have h2 := h.1 2 (by decide)
    simpa using h2

/-- Witness for `invalid_session_handling`: an unknown session id on POST
is answered 400 and the registry stays as it was; a non-initialize POST
with no header likewise; and the session map after any of these contains
only what it contained before. -/
theorem invalid_session_handling_witness :
    ((⟨HttpMethod.post, some "ghost", true⟩ : MCPRequest).sessionId = some "ghost") ∧
    ((⟨["a"], []⟩ : ServerState).transports.contains "ghost" = false) ∧
    handlePostRequest ⟨10, 1000, 30000⟩ 0 ⟨["a"], []⟩
        ⟨HttpMethod.post, some "ghost", true⟩ "z" =
      (invalidSessionResponse, ⟨["a"], []⟩) ∧
    handlePostRequest ⟨10, 1000, 30000⟩ 0 ⟨["a"], []⟩
        ⟨HttpMethod.post, none, false⟩ "z" =
      (invalidSessionResponse, ⟨["a"], []⟩) := by
  refine ⟨by decide, by decide, ?_, ?_⟩
  · exact ((invalid_session_handling ⟨10, 1000, 30000⟩ 0 ⟨["a"], []⟩
      ⟨HttpMethod.post, some "ghost", true⟩ "z").1 "ghost" rfl (by decide)).1
  · exact (invalid_session_handling ⟨10, 1000, 30000⟩ 0 ⟨["a"], []⟩
      ⟨HttpMethod.post, none, false⟩ "z").2.1 rfl rfl

/-- C4 (amended): for a request that passes the rate-limiting middleware
(or when no rate limit is configured), a registry at or above
`maxConcurrentSessions` makes the dispatcher answer 503
`SERVER_OVERLOADED` before any session-lookup logic and with the session
registry left untouched; the rate limiter, however, runs before the MCP
handler and is consulted for every request. -/
theorem overload_short_circuit_after_admission (opts : StreamableHttpServerOptions)
    (rateCfg : Option RateLimitConfig) (now : Nat) (rl : RateLimitState)
    (st : ServerState) (req : MCPRequest) (key newId : String)
    (hcap : opts.maxConcurrentSessions ≤ st.transports.length)
    (hadm : rateCfg = none ∨
      ∃ cfg, rateCfg = some cfg ∧ (admitRequest cfg now rl key).1.allowed = true) :
    (handleHttpRequest opts rateCfg now rl st req key newId).1 = overloadedResponse ∧
    (handleHttpRequest opts rateCfg now rl st req key newId).2.2 = st := by
  rcases hadm with rfl | ⟨cfg, rfl, hallow⟩
  · simp [handleHttpRequest, handleMCP_at_capacity opts now st req newId hcap]
  · simp [handleHttpRequest, hallow, handleMCP_at_capacity opts now st req newId hcap]

/-- Witness for `overload_short_circuit_after_admission`: an admitted
request at the ceiling gets the 503 envelope and the registry stays as it
was. -/
theorem overload_short_circuit_after_admission_witness :
    ((⟨1, 1000, 30000⟩ : StreamableHttpServerOptions).maxConcurrentSessions ≤
      (⟨["a"], []⟩ : ServerState).transports.length) ∧
    (handleHttpRequest ⟨1, 1000, 30000⟩ (some ⟨1000, 5⟩) 500 []
        ⟨["a"], []⟩ ⟨HttpMethod.post, none, true⟩ "k" "z").1 = overloadedResponse ∧
    (handleHttpRequest ⟨1, 1000, 30000⟩ (some ⟨1000, 5⟩) 500 []
        ⟨["a"], []⟩ ⟨HttpMethod.post, none, true⟩ "k" "z").2.2 = ⟨["a"], []⟩ :=
  ⟨by decide,
    overload_short_circuit_after_admission ⟨1, 1000, 30000⟩ (some ⟨1000, 5⟩) 500 []
      ⟨["a"], []⟩ ⟨HttpMethod.post, none, true⟩ "k" "z" (by decide)
      (Or.inr ⟨⟨1000, 5⟩, rfl, by decide⟩)⟩

/-- C8: for a streaming channel, the heartbeat interval is the fixed 30000
ms of the `setInterval` call, so consecutive heartbeat instants are 30000
apart; while the session is open and the write succeeds, each firing
writes one heartbeat and changes nothing; a heartbeat write error makes
the firing clear the interval and run `SSETransport.closeSession`,
evicting exactly that session (marked closed, interval cleared, removed
from the sessions record) and leaving every other session untouched; a
firing on a closed session writes nothing, and once the interval is
cleared a firing is a complete no-op. -/
theorem heartbeat_interval_and_eviction (writeFails : String → Bool)
    (w : List SSESession) (sid : String) (s : SSESession) (startT k : Nat)
    (hfind : w.find? (fun x => x.id == sid) = some s)
    (huniq : ∀ x ∈ w, x.id = sid → x = s) :
    (heartbeatIntervalMs = 30000 ∧
      heartbeatTime startT (k + 1) = heartbeatTime startT k + heartbeatIntervalMs) ∧
    (s.heartbeatActive = true → s.isClosed = false → writeFails sid = false →
      heartbeatFire writeFails w sid = (w, [sid])) ∧
    (s.heartbeatActive = true → s.isClosed = false → s.inMap = true →
      writeFails sid = true →
      heartbeatFire writeFails w sid =
        (w.map (fun x => if x.id = sid then ⟨sid, true, false, false⟩ else x), [])) ∧
    (s.isClosed = true → (heartbeatFire writeFails w sid).2 = []) ∧
    (s.heartbeatActive = false → heartbeatFire writeFails w sid = (w, [])) := by
  have hsid : s.id = sid := by simpa using List.find?_some hfind
  refine ⟨⟨rfl, ?_⟩, ?_, ?_, ?_, ?_⟩
  · show startT + heartbeatIntervalMs * (k + 1 + 1) =
      startT + heartbeatIntervalMs * (k + 1) + heartbeatIntervalMs
    ring
  · intro hact hopen hwf
    simp [heartbeatFire, hfind, hact, hopen, hwf]
  · intro hact hopen hinmap hwf
    have hstep : heartbeatFire writeFails w sid =
        (closeSession (clearHeartbeatOf w sid) sid, []) := by
      simp [heartbeatFire, hfind, hact, hopen, hwf]
    rw [hstep]
    have hworld : closeSession (clearHeartbeatOf w sid) sid =
        w.map (fun x => if x.id = sid then ⟨sid, true, false, false⟩ else x) := by
      rw [closeSession, clearHeartbeatOf, List.map_map]
      apply List.map_congr_left
      intro x hx
      by_cases hxid : x.id = sid
      · have hxs : x = s := huniq x hx hxid
        subst hxs
        simp [Function.comp, hsid, hinmap, hopen]
      · simp [Function.comp, hxid]
    rw [hworld]
  · intro hclosed
    by_cases hact : s.heartbeatActive = true
    · simp [heartbeatFire, hfind, hact, hclosed]
    · have hact' : s.heartbeatActive = false := by simpa using hact
      simp [heartbeatFire, hfind, hact']
  · intro hact
    simp [heartbeatFire, hfind, hact]

/-- Witness for `heartbeat_interval_and_eviction`: in a world of sessions
`a` and `b` both open, a failed heartbeat write on `a` evicts `a` (closed,
interval cleared, out of the map) and leaves `b` untouched with no
heartbeat emitted, while with a healthy channel the firing emits exactly
one heartbeat to `a` and changes nothing. -/
theorem heartbeat_interval_and_eviction_witness :
    ([⟨"a", false, true, true⟩, ⟨"b", false, true, true⟩] : List SSESession).find?
        (fun x => x.id == "a") = some ⟨"a", false, true, true⟩ ∧
    heartbeatFire (fun s => s == "a")
        [⟨"a", false, true, true⟩, ⟨"b", false, true, true⟩] "a" =
      ([⟨"a", true, false, false⟩, ⟨"b", false, true, true⟩], []) ∧
    heartbeatFire (fun _ => false)
        [⟨"a", false, true, true⟩, ⟨"b", false, true, true⟩] "a" =
      ([⟨"a", false, true, true⟩, ⟨"b", false, true, true⟩], ["a"]) := by
  have h1 := heartbeat_interval_and_eviction (fun s => s == "a")
    [⟨"a", false, true, true⟩, ⟨"b", false, true, true⟩] "a" ⟨"a", false, true, true⟩
    0 0 (by decide) (by decide)
  have h2 := heartbeat_interval_and_eviction (fun _ => false)
    [⟨"a", false, true, true⟩, ⟨"b", false, true, true⟩] "a" ⟨"a", false, true, true⟩
    0 0 (by decide) (by decide)
  refine ⟨by decide, ?_, h2.2.1 rfl rfl rfl⟩
  have h3 := h1.2.2.1 rfl rfl rfl (by decide)
  rw [h3]
  exact congrArg (fun l => (l, ([] : List String))) (by decide)

/-! Lemmas about the rate limiter. -/

theorem admit_fresh (cfg : RateLimitConfig) (t : Nat) (st : RateLimitState)
    (key : String) (hget : mapGet st key = none) :
    admitRequest cfg t st key =
      (⟨decide (1 ≤ cfg.maxRequests), cfg.maxRequests - 1, t + cfg.windowMs⟩,
        mapSet st key ⟨1, t⟩) := by
  simp [admitRequest, hget]

theorem admit_increments (cfg : RateLimitConfig) (t : Nat) (st : RateLimitState)
    (key : String) (c w0 : Nat) (hget : mapGet st key = some ⟨c, w0⟩)
    (ht : t < w0 + cfg.windowMs) :
    admitRequest cfg t st key =
      (⟨decide (c + 1 ≤ cfg.maxRequests), cfg.maxRequests - (c + 1), w0 + cfg.windowMs⟩,
        mapSet st key ⟨c + 1, w0⟩) := by
  have hn : ¬ w0 + cfg.windowMs ≤ t := Nat.not_le.mpr ht
  simp [admitRequest, hget, hn]

theorem admit_resets (cfg : RateLimitConfig) (t : Nat) (st : RateLimitState)
    (key : String) (c w0 : Nat) (hget : mapGet st key = some ⟨c, w0⟩)
    (ht : w0 + cfg.windowMs ≤ t) :
    admitRequest cfg t st key =
      (⟨decide (1 ≤ cfg.maxRequests), cfg.maxRequests - 1, t + cfg.windowMs⟩,
        mapSet st key ⟨1, t⟩) := by
  simp [admitRequest, hget, ht]

/-- Every call of a run that stays inside the key's current window is
admitted while the budget allows, and the entry's counter advances with
the window start unchanged. -/
theorem admitSeq_within_window (cfg : RateLimitConfig) (key : String) (w0 : Nat)
    (ts : List Nat) :
    ∀ (c : Nat) (st : RateLimitState),
      mapGet st key = some ⟨c, w0⟩ →
      (∀ t ∈ ts, t < w0 + cfg.windowMs) →
      c + ts.length ≤ cfg.maxRequests →
      (∀ r ∈ (admitSeq cfg st key ts).1, r.allowed = true) ∧
      mapGet (admitSeq cfg st key ts).2 key = some ⟨c + ts.length, w0⟩ := by
  induction ts with
  | nil =>
    intro c st hget _ _
    exact ⟨by simp [admitSeq], by simpa [admitSeq] using hget⟩
  | cons t ts ih =>
    intro c st hget hin hcount
    have hstep := admit_increments cfg t st key c w0 hget (hin t (List.mem_cons_self t ts))
    have hget' : mapGet (admitRequest cfg t st key).2 key = some ⟨c + 1, w0⟩ := by
      rw [hstep]
      exact mapGet_mapSet_self _ _ _
    have hcount' : c + 1 + ts.length ≤ cfg.maxRequests := by
      simp only [List.length_cons] at hcount
      omega
    obtain ⟨ih1, ih2⟩ := ih (c + 1) (admitRequest cfg t st key).2 hget'
      (fun x hx => hin x (List.mem_cons_of_mem t hx)) hcount'
    constructor
    · intro r hr
      have h1 : (admitSeq cfg st key (t :: ts)).1 =
          (admitRequest cfg t st key).1 :: (admitSeq cfg (admitRequest cfg t st key).2 key ts).1 := rfl
      rw [h1] at hr
      rcases List.mem_cons.1 hr with rfl | hr'
      · rw [hstep]
        simp only [decide_eq_true_eq]
        simp only [List.length_cons] at hcount
        omega
      · exact ih1 r hr'
    · have h2 : (admitSeq cfg st key (t :: ts)).2 =
          (admitSeq cfg (admitRequest cfg t st key).2 key ts).2 := rfl
      have harith : c + 1 + ts.length = c + (t :: ts).length := by
        simp only [List.length_cons]
        omega
      rw [harith] at ih2
      rw [h2, ih2]

/-- C9: modelled from the spec (the rate limiter's source file is not
under `src/`). For a key with no prior entry, a run of exactly
`maxRequests` calls all lying inside the window opened by the first call
is admitted in full; any further call inside that window is rejected with
`allowed = false`, zero remaining and `resetAt` equal to the window start
plus the window duration — which the middleware surfaces as the 429
`RateLimited` envelope; and a call at or after the window's end is
admitted again (the counter resets). -/
theorem rate_limit_window_behaviour (cfg : RateLimitConfig) (key : String)
    (st0 : RateLimitState) (t0 : Nat) (ts : List Nat)
    (opts : StreamableHttpServerOptions) (st : ServerState) (req : MCPRequest)
    (newId : String)
    (hfresh : mapGet st0 key = none)
    (hts : ∀ t ∈ ts, t0 ≤ t ∧ t < t0 + cfg.windowMs)
    (hlen : ts.length + 1 = cfg.maxRequests) :
    (∀ r ∈ (admitSeq cfg st0 key (t0 :: ts)).1, r.allowed = true) ∧
    (∀ t, t < t0 + cfg.windowMs →
      (admitRequest cfg t (admitSeq cfg st0 key (t0 :: ts)).2 key).1 =
        ⟨false, 0, t0 + cfg.windowMs⟩) ∧
    (∀ t, t < t0 + cfg.windowMs →
      (handleHttpRequest opts (some cfg) t (admitSeq cfg st0 key (t0 :: ts)).2 st req
          key newId).1 = rateLimitedResponse) ∧
    (∀ t, t0 + cfg.windowMs ≤ t →
      (admitRequest cfg t (admitSeq cfg st0 key (t0 :: ts)).2 key).1.allowed = true) := by
  have hmax1 : 1 ≤ cfg.maxRequests := by omega
  have hstep0 := admit_fresh cfg t0 st0 key hfresh
  have hget1 : mapGet (admitRequest cfg t0 st0 key).2 key = some ⟨1, t0⟩ := by
    rw [hstep0]
    exact mapGet_mapSet_self _ _ _
  obtain ⟨hall, hfinal⟩ := admitSeq_within_window cfg key t0 ts 1 (admitRequest cfg t0 st0 key).2
    hget1 (fun t ht => (hts t ht).2) (by omega)
  have hfinal' : mapGet (admitSeq cfg st0 key (t0 :: ts)).2 key =
      some ⟨cfg.maxRequests, t0⟩ := by
    have h2 : (admitSeq cfg st0 key (t0 :: ts)).2 =
        (admitSeq cfg (admitRequest cfg t0 st0 key).2 key ts).2 := rfl
    have harith : 1 + ts.length = cfg.maxRequests := by omega
    rw [harith] at hfinal
    rw [h2, hfinal]
  refine ⟨?_, ?_, ?_, ?_⟩
  · intro r hr
    have h1 : (admitSeq cfg st0 key (t0 :: ts)).1 =
        (admitRequest cfg t0 st0 key).1 :: (admitSeq cfg (admitRequest cfg t0 st0 key).2 key ts).1 := rfl
    rw [h1] at hr
    rcases List.mem_cons.1 hr with rfl | hr'
    · rw [hstep0]
      simpa using hmax1
    · exact hall r hr'
  · intro t ht
    have hadm := admit_increments cfg t _ key cfg.maxRequests t0 hfinal' ht
    rw [hadm]
    have hs : cfg.maxRequests - (cfg.maxRequests + 1) = 0 := by omega
    simp [hs]
  · intro t ht
    have hadm := admit_increments cfg t _ key cfg.maxRequests t0 hfinal' ht
    have hallow : (admitRequest cfg t (admitSeq cfg st0 key (t0 :: ts)).2 key).1.allowed
        = false := by
      rw [hadm]
      simp
    simp [handleHttpRequest, hallow]
  · intro t ht
    have hadm := admit_resets cfg t _ key cfg.maxRequests t0 hfinal' ht
    rw [hadm]
    simpa using hmax1

/-- Witness for `rate_limit_window_behaviour`: window 1000 ms, maximum 2;
after admitted calls for key `x` at 0 and 100, a call at 200 is rejected
with `resetAt` 1000, and a call at 1200 is admitted again. -/
theorem rate_limit_window_behaviour_witness :
    (mapGet ([] : RateLimitState) "x" = none) ∧
    (admitRequest ⟨1000, 2⟩ 200 (admitSeq ⟨1000, 2⟩ [] "x" [0, 100]).2 "x").1 =
      ⟨false, 0, 0 + (⟨1000, 2⟩ : RateLimitConfig).windowMs⟩ ∧
    (admitRequest ⟨1000, 2⟩ 1200 (admitSeq ⟨1000, 2⟩ [] "x" [0, 100]).2 "x").1.allowed
      = true := by
  have h := rate_limit_window_behaviour ⟨1000, 2⟩ "x" [] 0 [100] ⟨1, 1, 1⟩
    emptyServerState ⟨HttpMethod.post, none, true⟩ "z" rfl (by decide) (by decide)
  exact ⟨rfl, h.2.1 200 (by decide), h.2.2.2 1200 (by decide)⟩

end MCPTransport
